import Mathlib

/-!
Verification of the stepstone lead-scraper repository.

The definitions below are a shallow embedding of src/stepstone_scraper.py
(the final, most complete revision), with the earlier revision
src/scraper_github.py embedded where a claim compares the two.  Network
and DOM effects are abstracted as oracle inputs (an Option Nat fetch
result, a page-outcome environment), while all control flow, counters,
checkpoint writes and shared-state updates are translated faithfully.
-/

namespace Stepstone

/-- Constant PAGE_LIMIT, src/stepstone_scraper.py line 56. -/
def PAGE_LIMIT : Nat := 20

/-- Constant MIN_JOBS, src/stepstone_scraper.py line 57. -/
def MIN_JOBS : Nat := 8

/-- Constant MAX_JOBS, src/stepstone_scraper.py line 58. -/
def MAX_JOBS : Nat := 45

/-- Constant MAX_DENIED, src/stepstone_scraper.py line 59. -/
def MAX_DENIED : Nat := 5

/-- Constant FALLBACK_MAX_VALID, src/stepstone_scraper.py line 66. -/
def FALLBACK_MAX_VALID : Nat := 5000

/-- One output record (the dict built at lines 374-381 of
src/stepstone_scraper.py, field names as in the CSV header). -/
structure Lead where
  keyword : String
  location : String
  title : String
  company : String
  jobs : Nat
  profile : String
deriving DecidableEq

/-- One job card as seen by process_card, with the network-dependent
parts replaced by their outcome: card_company is the company name read
in the first lock region (line 341), company the final name after the
possible detail-page override (line 361), profile_url the company URL
obtained at lines 348-363 (none when no URL was found), and jobCount
the count the resolution produced at lines 366-369. -/
structure Card where
  card_company : String
  company : String
  title : String
  profile_url : Option String
  jobCount : Nat
deriving DecidableEq

/-- Shared mutable state of one run of scrape(): seen_companies,
total_hits and raw_leads as initialised at lines 267-269 of
src/stepstone_scraper.py. -/
structure ScrapeState where
  seen_companies : Finset String
  total_hits : Nat
  raw_leads : List Lead
deriving DecidableEq

/-- Initial state of scrape(), lines 267-269. -/
def initState : ScrapeState := ⟨∅, 0, []⟩

/-- Lead dict built at lines 374-381: profile is profile_url or the
empty string. -/
def mkLead (kw loc : String) (c : Card) : Lead :=
  ⟨kw, loc, c.title, c.company, c.jobCount, c.profile_url.getD ""⟩

/-- Second lock region of process_card, lines 373-388 of
src/stepstone_scraper.py: under seen_lock, if the count is within
bounds and the company is unseen and the quota not reached, the lead is
appended, the company recorded and the counter incremented; otherwise
the shared state is untouched.  The lock makes this region atomic, so
an interleaved run is a sequence of these commits. -/
def process_card_commit (L : Nat) (kw loc : String) (c : Card) (s : ScrapeState) :
    ScrapeState :=
  if MIN_JOBS ≤ c.jobCount ∧ c.jobCount ≤ MAX_JOBS then
    if c.company ∉ s.seen_companies ∧ s.total_hits < L then
      { seen_companies := insert c.company s.seen_companies
        total_hits := s.total_hits + 1
        raw_leads := s.raw_leads ++ [mkLead kw loc c] }
    else s
  else s

/-- A run's shared state after an arbitrary sequence of card commits
(any interleaving of concurrent workers serialises into such a
sequence, since the commit is the only mutation of the shared state and
runs under seen_lock). -/
def runCommits (L : Nat) (steps : List (String × String × Card)) : ScrapeState :=
  steps.foldl (fun s step => process_card_commit L step.1 step.2.1 step.2.2 s) initState

/-- First lock region of process_card, lines 343-345: the card worker
returns before any resolution fetch when the company is already seen or
the quota is reached. -/
def cardShortCircuits (L : Nat) (s : ScrapeState) (c : Card) : Prop :=
  c.card_company ∈ s.seen_companies ∨ L ≤ s.total_hits

instance (L : Nat) (s : ScrapeState) (c : Card) :
    Decidable (cardShortCircuits L s c) := by
  unfold cardShortCircuits; infer_instance

/-- Resolution strategies available to process_card. -/
inductive Strategy where
  | companyProfile
  | keywordFallback
deriving DecidableEq

/-- Oracle for the two count fetches a card may perform: what
get_job_count would return on the company page and on the generic
search page; none models a navigation timeout or error. -/
structure FetchEnv where
  profileCount : Option Nat
  fallbackCount : Option Nat
deriving DecidableEq

/-- Embedding of count_jobs_for_company, lines 223-241 of
src/stepstone_scraper.py: a fetch error yields 0, and a count above
FALLBACK_MAX_VALID is discarded as implausible (line 232). -/
def count_jobs_for_company (fetched : Option Nat) : Nat :=
  match fetched with
  | none => 0
  | some c => if FALLBACK_MAX_VALID < c then 0 else c

/-- Embedding of fallback_job_search_pruned, lines 243-261 of
src/stepstone_scraper.py: a fetch error yields 0, and a count above
FALLBACK_MAX_VALID is pruned to 0 (line 253). -/
def fallback_job_search_pruned (fetched : Option Nat) : Nat :=
  match fetched with
  | none => 0
  | some c => if FALLBACK_MAX_VALID < c then 0 else c

/-- Count selection at lines 365-369 of src/stepstone_scraper.py: when
a profile URL was found the company page count is used (whatever it
is), otherwise the pruned generic search is used. -/
def resolveCount (profile_url : Option String) (env : FetchEnv) : Nat :=
  match profile_url with
  | some _ => count_jobs_for_company env.profileCount
  | none => fallback_job_search_pruned env.fallbackCount

/-- Strategies actually invoked by lines 365-369: exactly one of the
two, chosen by the presence of a profile URL. -/
def resolveStrategies (profile_url : Option String) : List Strategy :=
  match profile_url with
  | some _ => [Strategy.companyProfile]
  | none => [Strategy.keywordFallback]

/-- Strategy fetches a card performs given the shared state at its
first lock region: none when the first lock region returns early
(lines 343-345), otherwise the single strategy of lines 365-369. -/
def cardStrategyFetches (L : Nat) (s : ScrapeState) (c : Card) : List Strategy :=
  if cardShortCircuits L s c then [] else resolveStrategies c.profile_url

/-- Embedding of the count logic of the earlier revision
src/scraper_github.py, lines 110-120: get_job_count itself returns 0 on
failure, and when the profile count is 0 the generic fallback search is
performed (its navigation failure leaves the count at 0). -/
def github_job_count (profileCount : Nat) (fallbackFetch : Option Nat) : Nat :=
  if profileCount = 0 then
    match fallbackFetch with
    | none => 0
    | some c => c
  else profileCount

/-- Dispatch loop at lines 398-403 of src/stepstone_scraper.py: the
number of card workers created for a page of count cards.  total_hits
cannot change while the loop runs (the coroutines are only created, not
yet scheduled), so the loop either breaks immediately or dispatches
every card. -/
def dispatchCards (L total_hits count : Nat) : Nat :=
  if L ≤ total_hits then 0 else count

/-- Outcome of fetching one listing page, as classified by lines
297-325 of src/stepstone_scraper.py: navError is the goto/selector
exception at 305-307 (skip page), noCards the missing job-card selector
at 301-304 (break), denied a positive is_access_denied at 309, cards cs
the extracted cards whose workers reach the commit region (cs in commit
order; an empty list is count == 0 at line 324), and raiseError an
uncaught exception reaching the handler at line 424. -/
inductive PageOutcome where
  | navError
  | noCards
  | denied
  | cards (cs : List Card)
  | raiseError
deriving DecidableEq

/-- How one session (one iteration of the outer while loop, lines
285-431) ends: fullLoop is the for-else at line 413 (all PAGE_LIMIT
pages ran without break), brokeEmpty a break on an empty page (301-304
or 324-325), denialCooldown the MAX_DENIED branch at 312-317, quotaStop
the quota branch at 407-411, errorAbandon the except handler at
424-431. -/
inductive SessionEnd where
  | fullLoop
  | brokeEmpty
  | denialCooldown
  | quotaStop
  | errorAbandon
deriving DecidableEq

/-- Reason a value was written to PROGRESS_FILE: line 313
(denialCooldown), line 410 (quotaStop) or line 415 (taskCompleted). -/
inductive WriteCause where
  | denialCooldown
  | quotaStop
  | taskCompleted
deriving DecidableEq

/-- One write to PROGRESS_FILE: the task index current at the moment of
the write, the value written, and the write site. -/
structure CheckpointWrite where
  taskIdx : Nat
  value : Nat
  cause : WriteCause
deriving DecidableEq

/-- Result of one session: shared state on exit, PROGRESS_FILE writes
performed inside the page loop, and how the loop ended. -/
structure SessResult where
  state : ScrapeState
  writes : List CheckpointWrite
  kind : SessionEnd
deriving DecidableEq

/-- Shared state after all workers of one page finished, lines 398-405:
the dispatch loop creates workers for cs.take (dispatchCards ...) cards
and gather runs their commits in order. -/
def pageStep (L : Nat) (kw loc : String) (cs : List Card) (s : ScrapeState) :
    ScrapeState :=
  (cs.take (dispatchCards L s.total_hits cs.length)).foldl
    (fun st c => process_card_commit L kw loc c st) s

/-- Page loop of one session, lines 293-411 of src/stepstone_scraper.py,
structurally recursive on the number r of page iterations left
(initially PAGE_LIMIT).  env gives each page number its outcome.  When
r reaches 0 the for loop finished without break and the for-else runs
(fullLoop).  A denial increments the session counter and, at MAX_DENIED,
writes the current task index and breaks into the cooldown (312-317); a
successful page never resets the counter.  A page with cards commits
its workers and then checks the quota (407-411), writing the current
task index on quota stop. -/
def sessionPages (L idx : Nat) (kw loc : String) (env : Nat → PageOutcome) :
    Nat → Nat → Nat → ScrapeState → SessResult
  | 0, _, _, s => ⟨s, [], SessionEnd.fullLoop⟩
  | r + 1, pageNum, denied, s =>
    match env pageNum with
    | PageOutcome.raiseError => ⟨s, [], SessionEnd.errorAbandon⟩
    | PageOutcome.navError => sessionPages L idx kw loc env r (pageNum + 1) denied s
    | PageOutcome.noCards => ⟨s, [], SessionEnd.brokeEmpty⟩
    | PageOutcome.denied =>
      if MAX_DENIED ≤ denied + 1 then
        ⟨s, [⟨idx, idx, WriteCause.denialCooldown⟩], SessionEnd.denialCooldown⟩
      else sessionPages L idx kw loc env r (pageNum + 1) (denied + 1) s
    | PageOutcome.cards cs =>
      if cs.length = 0 then ⟨s, [], SessionEnd.brokeEmpty⟩
      else
        let s' := pageStep L kw loc cs s
        if L ≤ s'.total_hits then
          ⟨s', [⟨idx, idx, WriteCause.quotaStop⟩], SessionEnd.quotaStop⟩
        else sessionPages L idx kw loc env r (pageNum + 1) denied s'

/-- One (term, locality, radius) entry of SEARCH_PARAMS, lines 41-54. -/
structure SearchTask where
  term : String
  locality : String
  radius : Nat
deriving DecidableEq

/-- Result of a whole run of scrape(): final shared state, ordered
trace of PROGRESS_FILE writes, the task index current when the while
loop stopped, and whether it stopped at all (false means the fuel ran
out while the loop was still going). -/
structure CrawlResult where
  state : ScrapeState
  writes : List CheckpointWrite
  finalIdx : Nat
  finished : Bool
deriving DecidableEq

/-- Outer while loop of scrape(), lines 283-431: each iteration (a
session) builds a fresh browser, resets the denial counter to 0 and
runs the page loop for the task at idx.  On fullLoop the for-else
(413-417) increments idx and writes it; on quotaStop the run ends; on
brokeEmpty (line 422), denialCooldown (line 317) and errorAbandon
(line 431) the loop re-enters the same idx.  env gives page outcomes
per session counter, fuel bounds the number of iterations modelled. -/
def crawl (L : Nat) (plan : List SearchTask) (env : Nat → Nat → PageOutcome) :
    Nat → Nat → Nat → ScrapeState → List CheckpointWrite → CrawlResult
  | 0, idx, _, s, ws => ⟨s, ws, idx, false⟩
  | fuel + 1, idx, sess, s, ws =>
    if h : idx < plan.length then
      let t := plan.get ⟨idx, h⟩
      let r := sessionPages L idx t.term t.locality (env sess) PAGE_LIMIT 1 0 s
      match r.kind with
      | SessionEnd.fullLoop =>
        crawl L plan env fuel (idx + 1) (sess + 1) r.state
          (ws ++ r.writes ++ [⟨idx, idx + 1, WriteCause.taskCompleted⟩])
      | SessionEnd.quotaStop => ⟨r.state, ws ++ r.writes, idx, true⟩
      | SessionEnd.denialCooldown =>
        crawl L plan env fuel idx (sess + 1) r.state (ws ++ r.writes)
      | SessionEnd.brokeEmpty =>
        crawl L plan env fuel idx (sess + 1) r.state (ws ++ r.writes)
      | SessionEnd.errorAbandon =>
        crawl L plan env fuel idx (sess + 1) r.state (ws ++ r.writes)
    else ⟨s, ws, idx, true⟩

/-- Dedup key of the final CSV block, line 444 of
src/stepstone_scraper.py: the (company, profile) pair, and likewise
line 147 of src/scraper_github.py. -/
def dedupKey (r : Lead) : String × String := (r.company, r.profile)

/-- Final deduplicated export, lines 442-449 of src/stepstone_scraper.py:
a dict keyed by dedupKey keeps the first row per key, output in
insertion order. -/
def export_deduplicated (rows : List Lead) : List Lead :=
  rows.foldl
    (fun acc r => if acc.any (fun x => decide (dedupKey x = dedupKey r)) then acc
                  else acc ++ [r]) []

/-- Invariant tying the three shared variables of scrape() together:
the counter equals the cardinality of the seen set and the number of
appended rows, never exceeds the quota, and the appended rows carry
pairwise distinct company names, all of them recorded as seen. -/
def ScrapeInv (L : Nat) (s : ScrapeState) : Prop :=
  s.total_hits = s.seen_companies.card ∧
  s.raw_leads.length = s.total_hits ∧
  s.total_hits ≤ L ∧
  (s.raw_leads.map Lead.company).Nodup ∧
  ∀ l ∈ s.raw_leads, l.company ∈ s.seen_companies

theorem inv_init (L : Nat) : ScrapeInv L initState := by
  refine ⟨by simp [initState], by simp [initState], by simp [initState],
    by simp [initState], ?_⟩
  intro l hl
  simp [initState] at hl

theorem inv_commit (L : Nat) (kw loc : String) (c : Card) (s : ScrapeState)
    (h : ScrapeInv L s) : ScrapeInv L (process_card_commit L kw loc c s) := by
  obtain ⟨h1, h2, h3, h4, h5⟩ := h
  unfold process_card_commit
  split
  · split
    · rename_i hg
      obtain ⟨hnot, hlt⟩ := hg
      refine ⟨?_, ?_, ?_, ?_, ?_⟩
      · simp [Finset.card_insert_of_not_mem hnot, h1]
      · simp [h2]
      · simpa using hlt
      · simp only [List.map_append, List.map_cons, List.map_nil]
        refine List.Nodup.append h4 (List.nodup_singleton _) ?_
        intro x hx hxs
        simp only [List.mem_singleton] at hxs
        subst hxs
        simp only [List.mem_map] at hx
        obtain ⟨l, hl, hlc⟩ := hx
        have : l.company ∈ s.seen_companies := h5 l hl
        rw [hlc] at this
        exact hnot (by simpa [mkLead] using this)
      · intro l hl
        simp only [List.mem_append, List.mem_singleton] at hl
        rcases hl with hl | hl
        · exact Finset.mem_insert_of_mem (h5 l hl)
        · subst hl
          simp [mkLead]
    · exact ⟨h1, h2, h3, h4, h5⟩
  · exact ⟨h1, h2, h3, h4, h5⟩

theorem inv_foldl {α : Type} (L : Nat) (f : ScrapeState → α → ScrapeState)
    (hf : ∀ s a, ScrapeInv L s → ScrapeInv L (f s a)) :
    ∀ (xs : List α) (s : ScrapeState), ScrapeInv L s → ScrapeInv L (xs.foldl f s) := by
  intro xs
  induction xs with
  | nil => intro s h; exact h
  | cons a as ih => intro s h; exact ih _ (hf s a h)

theorem inv_runCommits (L : Nat) (steps : List (String × String × Card)) :
    ScrapeInv L (runCommits L steps) :=
  inv_foldl L _ (fun s a h => inv_commit L a.1 a.2.1 a.2.2 s h) steps initState
    (inv_init L)

theorem inv_pageStep (L : Nat) (kw loc : String) (cs : List Card) (s : ScrapeState)
    (h : ScrapeInv L s) : ScrapeInv L (pageStep L kw loc cs s) :=
  inv_foldl L _ (fun s c h => inv_commit L kw loc c s h) _ s h

theorem inv_session (L idx : Nat) (kw loc : String) (env : Nat → PageOutcome) :
    ∀ r pageNum denied s, ScrapeInv L s →
      ScrapeInv L (sessionPages L idx kw loc env r pageNum denied s).state := by
  intro r
  induction r with
  | zero => intro pageNum denied s h; exact h
  | succ r ih =>
    intro pageNum denied s h
    cases henv : env pageNum with
    | raiseError => simp only [sessionPages, henv]; exact h
    | navError => simp only [sessionPages, henv]; exact ih _ _ _ h
    | noCards => simp only [sessionPages, henv]; exact h
    | denied =>
      simp only [sessionPages, henv]
      split
      · exact h
      · exact ih _ _ _ h
    | cards cs =>
      simp only [sessionPages, henv]
      split
      · exact h
      · split
        · exact inv_pageStep L kw loc cs s h
        · exact ih _ _ _ (inv_pageStep L kw loc cs s h)

theorem inv_crawl (L : Nat) (plan : List SearchTask) (env : Nat → Nat → PageOutcome) :
    ∀ fuel idx sess s ws, ScrapeInv L s →
      ScrapeInv L (crawl L plan env fuel idx sess s ws).state := by
  intro fuel
  induction fuel with
  | zero => intro idx sess s ws h; exact h
  | succ fuel ih =>
    intro idx sess s ws h
    simp only [crawl]
    split
    · rename_i hlt
      have hr := inv_session L idx (plan.get ⟨idx, hlt⟩).term
        (plan.get ⟨idx, hlt⟩).locality (env sess) PAGE_LIMIT 1 0 s h
      split
      · exact ih _ _ _ _ hr
      · exact hr
      · exact ih _ _ _ _ hr
      · exact ih _ _ _ _ hr
      · exact ih _ _ _ _ hr
    · exact h

theorem session_writes_shape (L idx : Nat) (kw loc : String) (env : Nat → PageOutcome) :
    ∀ r pageNum denied s,
      ∀ w ∈ (sessionPages L idx kw loc env r pageNum denied s).writes,
        w.taskIdx = idx ∧ w.value = idx ∧
          (w.cause = WriteCause.denialCooldown ∨ w.cause = WriteCause.quotaStop) := by
  intro r
  induction r with
  | zero =>
    intro pageNum denied s w hw
    simp [sessionPages] at hw
  | succ r ih =>
    intro pageNum denied s w hw
    cases henv : env pageNum with
    | raiseError =>
      simp only [sessionPages, henv] at hw
      simp at hw
    | navError =>
      simp only [sessionPages, henv] at hw
      exact ih _ _ _ w hw
    | noCards =>
      simp only [sessionPages, henv] at hw
      simp at hw
    | denied =>
      simp only [sessionPages, henv] at hw
      by_cases hd : MAX_DENIED ≤ denied + 1
      · rw [if_pos hd] at hw
        simp only [List.mem_singleton] at hw
        subst hw
        exact ⟨rfl, rfl, Or.inl rfl⟩
      · rw [if_neg hd] at hw
        exact ih _ _ _ w hw
    | cards cs =>
      simp only [sessionPages, henv] at hw
      by_cases hlen : cs.length = 0
      · rw [if_pos hlen] at hw
        simp at hw
      · rw [if_neg hlen] at hw
        by_cases hq : L ≤ (pageStep L kw loc cs s).total_hits
        · rw [if_pos hq] at hw
          simp only [List.mem_singleton] at hw
          subst hw
          exact ⟨rfl, rfl, Or.inr rfl⟩
        · rw [if_neg hq] at hw
          exact ih _ _ _ w hw

theorem session_writes_nil (L idx : Nat) (kw loc : String) (env : Nat → PageOutcome) :
    ∀ r pageNum denied s,
      (sessionPages L idx kw loc env r pageNum denied s).kind ≠
        SessionEnd.denialCooldown →
      (sessionPages L idx kw loc env r pageNum denied s).kind ≠
        SessionEnd.quotaStop →
      (sessionPages L idx kw loc env r pageNum denied s).writes = [] := by
  intro r
  induction r with
  | zero => intro pageNum denied s _ _; rfl
  | succ r ih =>
    intro pageNum denied s hk1 hk2
    cases henv : env pageNum with
    | raiseError => simp only [sessionPages, henv]
    | navError =>
      simp only [sessionPages, henv] at hk1 hk2 ⊢
      exact ih _ _ _ hk1 hk2
    | noCards => simp only [sessionPages, henv]
    | denied =>
      simp only [sessionPages, henv] at hk1 hk2 ⊢
      by_cases hd : MAX_DENIED ≤ denied + 1
      · rw [if_pos hd] at hk1
        exact absurd rfl hk1
      · rw [if_neg hd] at hk1 hk2 ⊢
        exact ih _ _ _ hk1 hk2
    | cards cs =>
      simp only [sessionPages, henv] at hk1 hk2 ⊢
      by_cases hlen : cs.length = 0
      · rw [if_pos hlen]
      · rw [if_neg hlen] at hk1 hk2 ⊢
        by_cases hq : L ≤ (pageStep L kw loc cs s).total_hits
        · rw [if_pos hq] at hk2
          exact absurd rfl hk2
        · rw [if_neg hq] at hk1 hk2 ⊢
          exact ih _ _ _ hk1 hk2

/-- Shape of a legal checkpoint write: either the current task index
(quota stop at line 410 or denial cooldown at line 313), or the current
task index plus one after the task completed (line 415). -/
def goodWrite (w : CheckpointWrite) : Prop :=
  ((w.cause = WriteCause.denialCooldown ∨ w.cause = WriteCause.quotaStop) ∧
    w.value = w.taskIdx) ∨
  (w.cause = WriteCause.taskCompleted ∧ w.value = w.taskIdx + 1)

theorem crawl_writes_shape (L : Nat) (plan : List SearchTask)
    (env : Nat → Nat → PageOutcome) :
    ∀ fuel idx sess s ws, (∀ w ∈ ws, goodWrite w) →
      ∀ w ∈ (crawl L plan env fuel idx sess s ws).writes, goodWrite w := by
  intro fuel
  induction fuel with
  | zero => intro idx sess s ws hws w hw; exact hws w hw
  | succ fuel ih =>
    intro idx sess s ws hws w hw
    simp only [crawl] at hw
    split at hw
    · rename_i hlt
      have hsess := session_writes_shape L idx (plan.get ⟨idx, hlt⟩).term
        (plan.get ⟨idx, hlt⟩).locality (env sess) PAGE_LIMIT 1 0 s
      split at hw
      · refine ih _ _ _ _ ?_ w hw
        intro v hv
        simp only [List.mem_append, List.mem_singleton] at hv
        rcases hv with (hv | hv) | hv
        · exact hws v hv
        · obtain ⟨h1, h2, h3⟩ := hsess v hv
          exact Or.inl ⟨h3, h2.trans h1.symm⟩
        · subst hv
          exact Or.inr ⟨rfl, rfl⟩
      · simp only [List.mem_append] at hw
        rcases hw with hw | hw
        · exact hws w hw
        · obtain ⟨h1, h2, h3⟩ := hsess w hw
          exact Or.inl ⟨h3, h2.trans h1.symm⟩
      · refine ih _ _ _ _ ?_ w hw
        intro v hv
        simp only [List.mem_append] at hv
        rcases hv with hv | hv
        · exact hws v hv
        · obtain ⟨h1, h2, h3⟩ := hsess v hv
          exact Or.inl ⟨h3, h2.trans h1.symm⟩
      · refine ih _ _ _ _ ?_ w hw
        intro v hv
        simp only [List.mem_append] at hv
        rcases hv with hv | hv
        · exact hws v hv
        · obtain ⟨h1, h2, h3⟩ := hsess v hv
          exact Or.inl ⟨h3, h2.trans h1.symm⟩
      · refine ih _ _ _ _ ?_ w hw
        intro v hv
        simp only [List.mem_append] at hv
        rcases hv with hv | hv
        · exact hws v hv
        · obtain ⟨h1, h2, h3⟩ := hsess v hv
          exact Or.inl ⟨h3, h2.trans h1.symm⟩
    · exact hws w hw

theorem export_fold_of_distinct_companies :
    ∀ (rows acc : List Lead),
      (∀ r ∈ rows, ∀ a ∈ acc, a.company ≠ r.company) →
      (rows.map Lead.company).Nodup →
      rows.foldl
        (fun acc r => if acc.any (fun x => decide (dedupKey x = dedupKey r)) then acc
                      else acc ++ [r]) acc = acc ++ rows := by
  intro rows
  induction rows with
  | nil => intro acc _ _; simp
  | cons r rs ih =>
    intro acc hdisj hnd
    simp only [List.map_cons, List.nodup_cons] at hnd
    obtain ⟨hrnot, hnd'⟩ := hnd
    have hany : acc.any (fun x => decide (dedupKey x = dedupKey r)) = false := by
      rw [List.any_eq_false]
      intro a ha
      simp only [decide_eq_true_eq]
      intro hk
      have : a.company = r.company := congrArg Prod.fst hk
      exact hdisj r (List.mem_cons_self r rs) a ha this
    simp only [List.foldl_cons, hany, Bool.false_eq_true, if_false]
    rw [ih (acc ++ [r]) ?_ hnd']
    · simp
    · intro x hx a ha
      simp only [List.mem_append, List.mem_singleton] at ha
      rcases ha with ha | ha
      · exact hdisj x (List.mem_cons_of_mem r hx) a ha
      · subst ha
        intro hc
        exact hrnot (hc ▸ List.mem_map_of_mem Lead.company hx)

theorem export_deduplicated_of_distinct_companies (rows : List Lead)
    (h : (rows.map Lead.company).Nodup) : export_deduplicated rows = rows := by
  have := export_fold_of_distinct_companies rows [] (by simp) h
  simpa [export_deduplicated] using this

theorem countP_company_le_one (name : String) :
    ∀ rows : List Lead, (rows.map Lead.company).Nodup →
      rows.countP (fun l => l.company == name) ≤ 1 := by
  intro rows
  induction rows with
  | nil => intro _; simp
  | cons r rs ih =>
    intro h
    simp only [List.map_cons, List.nodup_cons] at h
    obtain ⟨hnotin, hnd⟩ := h
    rw [List.countP_cons]
    by_cases hc : r.company = name
    · have hz : rs.countP (fun l => l.company == name) = 0 := by
        rw [List.countP_eq_zero]
        intro l hl
        simp only [beq_iff_eq]
        intro hh
        exact hnotin ((hc ▸ hh : l.company = r.company) ▸
          List.mem_map_of_mem Lead.company hl)
      simp [hz, hc]
    · have hf : (r.company == name) = false := by
        simpa using hc
      simp only [hf, if_false]
      simpa using ih hnd

theorem session_empty_first_page (L idx : Nat) (kw loc : String)
    (env : Nat → PageOutcome) (r pageNum denied : Nat) (s : ScrapeState)
    (h : env pageNum = PageOutcome.cards []) :
    sessionPages L idx kw loc env (r + 1) pageNum denied s =
      ⟨s, [], SessionEnd.brokeEmpty⟩ := by
  simp [sessionPages, h]

/-- Concrete two-task search plan used by the concrete runs below. -/
def plan2 : List SearchTask :=
  [⟨"kundenservice", "ulm", 50⟩, ⟨"aussendienst", "trier", 50⟩]

/-- Environment in which every page fetch succeeds but extracts zero
job cards (pagination exhausted immediately). -/
def emptyEnv : Nat → Nat → PageOutcome := fun _ _ => PageOutcome.cards []

/-- Environment in which every page fetch raises an uncaught error. -/
def errorEnv : Nat → Nat → PageOutcome := fun _ _ => PageOutcome.raiseError

/-- Environment in which every page fetch is an access denial. -/
def denyEnv : Nat → Nat → PageOutcome := fun _ _ => PageOutcome.denied

/-- A card whose resolution yields a non-qualifying count of 0. -/
def nonqualCard : Card := ⟨"Beta GmbH", "Beta GmbH", "Helfer", none, 0⟩

/-- Environment alternating denial (odd pages) and a successful page
with one non-qualifying card (even pages): no two denials are ever
consecutive. -/
def altDenialEnv : Nat → PageOutcome := fun p =>
  if p % 2 = 1 then PageOutcome.denied else PageOutcome.cards [nonqualCard]

/-- A card that resolves successfully (count 100 > 0) but outside the
qualifying bounds [MIN_JOBS, MAX_JOBS]. -/
def acmeCard1 : Card :=
  ⟨"Acme GmbH", "Acme GmbH", "Techniker", some ("https://www.stepstone.de/cmp/acme"), 100⟩

/-- A later card carrying the same entity name as acmeCard1. -/
def acmeCard2 : Card :=
  ⟨"Acme GmbH", "Acme GmbH", "Monteur", some ("https://www.stepstone.de/cmp/acme"), 100⟩

/-- A qualifying card (count 10 within bounds). -/
def wCard : Card :=
  ⟨"Muster AG", "Muster AG", "Monteur", some ("https://www.stepstone.de/cmp/muster"), 10⟩

/-- Environment whose every page yields the single qualifying card. -/
def wEnv : Nat → PageOutcome := fun _ => PageOutcome.cards [wCard]

/-- A state whose counter already sits at the quota 5. -/
def wState : ScrapeState := ⟨∅, 5, []⟩

/-- Two raw leads sharing the company name but differing in profile. -/
def leadA : Lead :=
  ⟨"kundenservice", "ulm", "Servicetechniker", "Acme GmbH", 10,
    "https://www.stepstone.de/cmp/acme"⟩

/-- Second lead of the export counterexample pair. -/
def leadB : Lead :=
  ⟨"kundenservice", "ulm", "Monteur", "Acme GmbH", 12,
    "https://www.stepstone.de/cmp/acme-sued"⟩

/-- A concrete company profile URL. -/
def acmeProfileUrl : String := "https://www.stepstone.de/cmp/acme"

/-- C1: with quota L, at most L qualifying leads are ever appended in a
run; once the counter sits at L the commit region never changes the
shared state again (no further lead is produced even for candidates
still in flight on the current page); the dispatch loop creates no
worker once the counter is at the quota; and a page of candidates
arriving with the counter at the quota makes the session stop with a
quota checkpoint write of the current task index. -/
theorem quota_never_exceeded (L : Nat) :
    (∀ steps, (runCommits L steps).total_hits ≤ L) ∧
    (∀ kw loc c s, L ≤ s.total_hits → process_card_commit L kw loc c s = s) ∧
    (∀ hits n, L ≤ hits → dispatchCards L hits n = 0) ∧
    (∀ idx kw loc env r pageNum denied s cs,
      env pageNum = PageOutcome.cards cs → cs.length ≠ 0 → L ≤ s.total_hits →
      sessionPages L idx kw loc env (r + 1) pageNum denied s =
        ⟨s, [⟨idx, idx, WriteCause.quotaStop⟩], SessionEnd.quotaStop⟩) := by
  refine ⟨?_, ?_, ?_, ?_⟩
  · intro steps
    exact (inv_runCommits L steps).2.2.1
  · intro kw loc c s hL
    unfold process_card_commit
    split
    · rw [if_neg]
      rintro ⟨-, hlt⟩
      omega
    · rfl
  · intro hits n hL
    unfold dispatchCards
    rw [if_pos hL]
  · intro idx kw loc env r pageNum denied s cs hcs hne hL
    have hstep : pageStep L kw loc cs s = s := by
      unfold pageStep dispatchCards
      rw [if_pos hL]
      simp
    simp only [sessionPages, hcs, if_neg hne, hstep, if_pos hL]

/-- C1 witness: concrete instances of the four conjuncts at quota 5. -/
theorem quota_never_exceeded_witness :
    (runCommits 5 []).total_hits ≤ 5 ∧
    process_card_commit 5 ("kundenservice") ("ulm") wCard wState = wState ∧
    dispatchCards 5 5 10 = 0 ∧
    sessionPages 5 0 ("kundenservice") ("ulm") wEnv (0 + 1) 1 0 wState =
      ⟨wState, [⟨0, 0, WriteCause.quotaStop⟩], SessionEnd.quotaStop⟩ :=
  ⟨(quota_never_exceeded 5).1 [],
   (quota_never_exceeded 5).2.1 ("kundenservice") ("ulm") wCard wState (by decide),
   (quota_never_exceeded 5).2.2.1 5 10 (by decide),
   (quota_never_exceeded 5).2.2.2 0 ("kundenservice") ("ulm") wEnv 0 1 0 wState
     [wCard] rfl (by decide) (by decide)⟩

/-- C2 counterexample: the final export is keyed by the (company,
profile) pair, not by the company alone, so two raw rows sharing the
company name but differing in profile both survive the dedup. -/
theorem export_dedup_key_counterexample :
    leadA.company = leadB.company ∧ leadA ≠ leadB ∧
    export_deduplicated [leadA, leadB] = [leadA, leadB] ∧
    1 < (export_deduplicated [leadA, leadB]).countP
      (fun l => l.company == ("Acme GmbH")) := by
  decide

/-- C2 amended: the export dedup is keyed by (company, profile) rather
than by the company alone; still, the raw rows of any single run carry
pairwise distinct company names, so the export of a run is the raw list
itself and contains at most one lead per company name. -/
theorem export_at_most_one_lead_per_company (L : Nat)
    (steps : List (String × String × Card)) (name : String) :
    export_deduplicated (runCommits L steps).raw_leads =
      (runCommits L steps).raw_leads ∧
    (export_deduplicated (runCommits L steps).raw_leads).countP
      (fun l => l.company == name) ≤ 1 := by
  have hnd := (inv_runCommits L steps).2.2.2.1
  have he := export_deduplicated_of_distinct_companies _ hnd
  exact ⟨he, by rw [he]; exact countP_company_le_one name _ hnd⟩

/-- C3 counterexample: a candidate with a profile URL whose company
page reports 0 jobs gets the final count 0 and the keyword fallback
(which here would have returned 42) is never invoked. -/
theorem profile_zero_not_cascaded_counterexample :
    resolveCount (some acmeProfileUrl) ⟨some 0, some 42⟩ = 0 ∧
    Strategy.keywordFallback ∉ resolveStrategies (some acmeProfileUrl) ∧
    fallback_job_search_pruned (some 42) = 42 := by
  decide

/-- C3 amended: in stepstone_scraper.py the two count strategies are
exclusive alternatives chosen by the presence of a profile URL (a zero
company-page count is final and the keyword fallback runs only when no
profile URL was found), while in the earlier revision
scraper_github.py a profile count of 0 does trigger the keyword
fallback search. -/
theorem cascade_fallback_only_without_profile :
    (∀ u env, resolveCount (some u) env = count_jobs_for_company env.profileCount ∧
      Strategy.keywordFallback ∉ resolveStrategies (some u)) ∧
    (∀ env, resolveCount none env = fallback_job_search_pruned env.fallbackCount ∧
      resolveStrategies none = [Strategy.keywordFallback]) ∧
    (∀ c, github_job_count 0 (some c) = c) ∧
    (∀ pc f, pc ≠ 0 → github_job_count pc f = pc) ∧
    github_job_count 0 none = 0 := by
  refine ⟨?_, ?_, ?_, ?_, rfl⟩
  · intro u env
    refine ⟨rfl, ?_⟩
    simp [resolveStrategies]
  · intro env
    exact ⟨rfl, rfl⟩
  · intro c
    rfl
  · intro pc f hpc
    unfold github_job_count
    rw [if_neg hpc]

/-- C3 amended witness: concrete instances of the strategy selection. -/
theorem cascade_fallback_only_without_profile_witness :
    resolveCount (some acmeProfileUrl) ⟨some 7, some 9⟩ =
      count_jobs_for_company (some 7) ∧
    github_job_count 3 (some 9) = 3 :=
  ⟨(cascade_fallback_only_without_profile.1 acmeProfileUrl ⟨some 7, some 9⟩).1,
   cascade_fallback_only_without_profile.2.2.2.1 3 (some 9) (by decide)⟩

/-- C6: the keyword-fallback count is sanity-bounded: any fetched count
above FALLBACK_MAX_VALID is coerced to 0 (9000 against the ceiling 5000
gives 0), counts at or below the ceiling are returned unchanged, and a
fetch error gives 0. -/
theorem fallback_count_pruned :
    (∀ c, FALLBACK_MAX_VALID < c → fallback_job_search_pruned (some c) = 0) ∧
    (∀ c, c ≤ FALLBACK_MAX_VALID → fallback_job_search_pruned (some c) = c) ∧
    fallback_job_search_pruned (some 9000) = 0 ∧
    fallback_job_search_pruned (some 5000) = 5000 ∧
    fallback_job_search_pruned none = 0 := by
  refine ⟨?_, ?_, by decide, by decide, rfl⟩
  · intro c hc
    simp only [fallback_job_search_pruned]
    rw [if_pos hc]
  · intro c hc
    simp only [fallback_job_search_pruned]
    rw [if_neg (by omega)]

/-- C6 witness: the pruning applied at 9000 and at 4500. -/
theorem fallback_count_pruned_witness :
    FALLBACK_MAX_VALID < 9000 ∧ fallback_job_search_pruned (some 9000) = 0 ∧
    4500 ≤ FALLBACK_MAX_VALID ∧ fallback_job_search_pruned (some 4500) = 4500 :=
  ⟨by decide, fallback_count_pruned.1 9000 (by decide), by decide,
   fallback_count_pruned.2.1 4500 (by decide)⟩

/-- C4 (code bug): when the extractor returns no candidates for a page,
the for-else of the page loop is skipped, so the orchestrator never
increments the task index, never writes a checkpoint, and re-enters the
very same task forever: for every fuel the run is still at task 0 with
an empty write trace and has not terminated, instead of advancing to
task 1 and checkpointing 1. -/
theorem empty_page_never_advances_task (L : Nat) (plan : List SearchTask)
    (hplan : 0 < plan.length) :
    ∀ fuel sess s ws, crawl L plan emptyEnv fuel 0 sess s ws =
      ⟨s, ws, 0, false⟩ := by
  intro fuel
  induction fuel with
  | zero => intro sess s ws; rfl
  | succ fuel ih =>
    intro sess s ws
    have h20 : PAGE_LIMIT = 19 + 1 := rfl
    have hsess : sessionPages L 0 (plan.get ⟨0, hplan⟩).term
        (plan.get ⟨0, hplan⟩).locality (emptyEnv sess) PAGE_LIMIT 1 0 s =
        ⟨s, [], SessionEnd.brokeEmpty⟩ := by
      rw [h20]
      exact session_empty_first_page L 0 _ _ (emptyEnv sess) 19 1 0 s rfl
    rw [crawl, dif_pos hplan]
    simp only [hsess, List.append_nil]
    exact ih (sess + 1) s ws

/-- C4 witness: a concrete run over the two-task plan in the
empty-page environment makes no progress at all. -/
theorem empty_page_never_advances_task_witness :
    crawl 1000 plan2 emptyEnv 3 0 0 initState [] = ⟨initState, [], 0, false⟩ :=
  empty_page_never_advances_task 1000 plan2 (by decide) 3 0 initState []

/-- C5: every value ever written to the checkpoint file is either the
current task index with cause quota stop or denial cooldown (a task
re-enterable from page 1), or the current task index plus one written
after the task's full page loop finished. -/
theorem checkpoint_writes_task_boundaries (L : Nat) (plan : List SearchTask)
    (env : Nat → Nat → PageOutcome) (fuel idx0 : Nat) :
    ∀ w ∈ (crawl L plan env fuel idx0 0 initState []).writes,
      ((w.cause = WriteCause.denialCooldown ∨ w.cause = WriteCause.quotaStop) ∧
        w.value = w.taskIdx) ∨
      (w.cause = WriteCause.taskCompleted ∧ w.value = w.taskIdx + 1) := by
  intro w hw
  exact crawl_writes_shape L plan env fuel idx0 0 initState [] (by simp) w hw

/-- C5 witness: the cooldown write produced by a concrete all-denied
run satisfies the write shape. -/
theorem checkpoint_writes_task_boundaries_witness :
    (((⟨0, 0, WriteCause.denialCooldown⟩ : CheckpointWrite).cause =
        WriteCause.denialCooldown ∨
      (⟨0, 0, WriteCause.denialCooldown⟩ : CheckpointWrite).cause =
        WriteCause.quotaStop) ∧
      (⟨0, 0, WriteCause.denialCooldown⟩ : CheckpointWrite).value =
        (⟨0, 0, WriteCause.denialCooldown⟩ : CheckpointWrite).taskIdx) ∨
    ((⟨0, 0, WriteCause.denialCooldown⟩ : CheckpointWrite).cause =
        WriteCause.taskCompleted ∧
      (⟨0, 0, WriteCause.denialCooldown⟩ : CheckpointWrite).value =
        (⟨0, 0, WriteCause.denialCooldown⟩ : CheckpointWrite).taskIdx + 1) :=
  checkpoint_writes_task_boundaries 1000 plan2 denyEnv 1 0
    ⟨0, 0, WriteCause.denialCooldown⟩ (by decide)

/-- C7 counterexample: in a run whose every page raises an uncaught
error, the checkpoint file is never written (the claim requires a write
of the failed task index) and the run keeps retrying task 0 instead of
continuing with the next task. -/
theorem task_error_no_checkpoint_counterexample :
    (crawl 1000 plan2 errorEnv 3 0 0 initState []).writes = [] ∧
    (crawl 1000 plan2 errorEnv 3 0 0 initState []).finalIdx = 0 ∧
    (crawl 1000 plan2 errorEnv 3 0 0 initState []).finished = false := by
  decide

/-- C7 amended: an uncaught error during a task is caught (the run
never crashes) and contributes no checkpoint write, and the run then
retries the same task index in the same run rather than moving to the
next task. -/
theorem task_error_retries_same_task (L : Nat) (plan : List SearchTask)
    (env : Nat → Nat → PageOutcome) (fuel idx sess : Nat) (s : ScrapeState)
    (ws : List CheckpointWrite) (h : idx < plan.length)
    (hkind : (sessionPages L idx (plan.get ⟨idx, h⟩).term
        (plan.get ⟨idx, h⟩).locality (env sess) PAGE_LIMIT 1 0 s).kind =
        SessionEnd.errorAbandon) :
    (sessionPages L idx (plan.get ⟨idx, h⟩).term (plan.get ⟨idx, h⟩).locality
        (env sess) PAGE_LIMIT 1 0 s).writes = [] ∧
    crawl L plan env (fuel + 1) idx sess s ws =
      crawl L plan env fuel idx (sess + 1)
        (sessionPages L idx (plan.get ⟨idx, h⟩).term
          (plan.get ⟨idx, h⟩).locality (env sess) PAGE_LIMIT 1 0 s).state ws := by
  have hnil := session_writes_nil L idx (plan.get ⟨idx, h⟩).term
    (plan.get ⟨idx, h⟩).locality (env sess) PAGE_LIMIT 1 0 s
    (by rw [hkind]; intro hc; cases hc) (by rw [hkind]; intro hc; cases hc)
  refine ⟨hnil, ?_⟩
  rw [crawl, dif_pos h]
  simp only [hkind, hnil, List.append_nil]

/-- C7 amended witness: concrete instance in the all-error
environment. -/
theorem task_error_retries_same_task_witness :
    (sessionPages 1000 0 (plan2.get ⟨0, by decide⟩).term
        (plan2.get ⟨0, by decide⟩).locality (errorEnv 0) PAGE_LIMIT 1 0
        initState).writes = [] ∧
    crawl 1000 plan2 errorEnv (1 + 1) 0 0 initState [] =
      crawl 1000 plan2 errorEnv 1 0 (0 + 1)
        (sessionPages 1000 0 (plan2.get ⟨0, by decide⟩).term
          (plan2.get ⟨0, by decide⟩).locality (errorEnv 0) PAGE_LIMIT 1 0
          initState).state [] :=
  task_error_retries_same_task 1000 plan2 errorEnv 1 0 0 initState []
    (by decide) (by decide)

/-- C8 counterexample: in a session whose denials are never consecutive
(denied on odd pages, successful non-denied pages in between) the
denial counter still reaches MAX_DENIED and triggers the cooldown with
a checkpoint write, so a successful non-denied fetch does not reset the
streak to 0. -/
theorem nonconsecutive_denials_cooldown_counterexample :
    altDenialEnv 1 = PageOutcome.denied ∧
    altDenialEnv 2 ≠ PageOutcome.denied ∧
    altDenialEnv 3 = PageOutcome.denied ∧
    altDenialEnv 4 ≠ PageOutcome.denied ∧
    (sessionPages 1000 0 ("kundenservice") ("ulm") altDenialEnv PAGE_LIMIT 1 0
      initState).kind = SessionEnd.denialCooldown ∧
    (sessionPages 1000 0 ("kundenservice") ("ulm") altDenialEnv PAGE_LIMIT 1 0
      initState).writes = [⟨0, 0, WriteCause.denialCooldown⟩] := by
  decide

/-- C8 amended: the denial counter is per session: a successful
non-denied page passes it through unchanged to the next page, a denial
below the threshold increments it, and at MAX_DENIED accumulated
denials (consecutive or not) the session writes the current task index
and enters the cooldown; the counter is reset only because each new
session starts it at 0. -/
theorem denial_streak_not_reset_on_success :
    (∀ L idx kw loc env r pageNum denied s cs,
      env pageNum = PageOutcome.cards cs → cs.length ≠ 0 →
      ¬ L ≤ (pageStep L kw loc cs s).total_hits →
      sessionPages L idx kw loc env (r + 1) pageNum denied s =
        sessionPages L idx kw loc env r (pageNum + 1) denied
          (pageStep L kw loc cs s)) ∧
    (∀ L idx kw loc env r pageNum denied s,
      env pageNum = PageOutcome.denied → denied + 1 < MAX_DENIED →
      sessionPages L idx kw loc env (r + 1) pageNum denied s =
        sessionPages L idx kw loc env r (pageNum + 1) (denied + 1) s) ∧
    (∀ L idx kw loc env r pageNum denied s,
      env pageNum = PageOutcome.denied → MAX_DENIED ≤ denied + 1 →
      sessionPages L idx kw loc env (r + 1) pageNum denied s =
        ⟨s, [⟨idx, idx, WriteCause.denialCooldown⟩],
          SessionEnd.denialCooldown⟩) := by
  refine ⟨?_, ?_, ?_⟩
  · intro L idx kw loc env r pageNum denied s cs hcs hne hq
    simp only [sessionPages, hcs, if_neg hne, if_neg hq]
  · intro L idx kw loc env r pageNum denied s hd hlt
    simp only [sessionPages, hd,
      if_neg (by omega : ¬ MAX_DENIED ≤ denied + 1)]
  · intro L idx kw loc env r pageNum denied s hd hge
    simp only [sessionPages, hd, if_pos hge]

/-- C8 amended witness: after the successful page 2 of the alternating
environment the loop continues with the denial counter still at 1. -/
theorem denial_streak_not_reset_on_success_witness :
    sessionPages 1000 0 ("kundenservice") ("ulm") altDenialEnv (17 + 1) 2 1
      initState =
    sessionPages 1000 0 ("kundenservice") ("ulm") altDenialEnv 17 (2 + 1) 1
      (pageStep 1000 ("kundenservice") ("ulm") [nonqualCard] initState) :=
  denial_streak_not_reset_on_success.1 1000 0 ("kundenservice") ("ulm")
    altDenialEnv 17 2 1 initState [nonqualCard] (by decide) (by decide)
    (by decide)

/-- C9 counterexample: a candidate resolving successfully (count 100 >
0) but outside the qualifying bounds leaves its entity name out of the
seen set, so a later candidate with the same name does not
short-circuit: its cascade runs a strategy fetch again. -/
theorem unqualified_success_not_memoized_counterexample :
    0 < acmeCard1.jobCount ∧
    ¬ (MIN_JOBS ≤ acmeCard1.jobCount ∧ acmeCard1.jobCount ≤ MAX_JOBS) ∧
    (runCommits 1000 [(("kundenservice"), ("ulm"), acmeCard1)]).seen_companies
      = ∅ ∧
    cardStrategyFetches 1000
      (runCommits 1000 [(("kundenservice"), ("ulm"), acmeCard1)]) acmeCard2 =
      [Strategy.companyProfile] := by
  decide

/-- C9 amended: the run memoizes by entity name exactly the qualifying
appended leads: a name already in the seen set short-circuits a later
candidate before any strategy fetch, a resolution outside the bounds
(however successful) leaves the seen set unchanged, and a qualifying
commit below quota records the name. -/
theorem seen_set_memoizes_only_qualifying :
    (∀ L s c, c.card_company ∈ s.seen_companies →
      cardStrategyFetches L s c = []) ∧
    (∀ L kw loc c s, ¬ (MIN_JOBS ≤ c.jobCount ∧ c.jobCount ≤ MAX_JOBS) →
      (process_card_commit L kw loc c s).seen_companies = s.seen_companies) ∧
    (∀ L kw loc c s, (MIN_JOBS ≤ c.jobCount ∧ c.jobCount ≤ MAX_JOBS) →
      c.company ∉ s.seen_companies → s.total_hits < L →
      (process_card_commit L kw loc c s).seen_companies =
        insert c.company s.seen_companies) := by
  refine ⟨?_, ?_, ?_⟩
  · intro L s c hc
    unfold cardStrategyFetches
    rw [if_pos (show cardShortCircuits L s c from Or.inl hc)]
  · intro L kw loc c s hb
    unfold process_card_commit
    rw [if_neg hb]
  · intro L kw loc c s hb hnot hlt
    unfold process_card_commit
    rw [if_pos hb, if_pos ⟨hnot, hlt⟩]

/-- C9 amended witness: concrete instances of the three conjuncts. -/
theorem seen_set_memoizes_only_qualifying_witness :
    cardStrategyFetches 1000 ⟨{("Acme GmbH")}, 1, []⟩ acmeCard1 = [] ∧
    (process_card_commit 1000 ("kundenservice") ("ulm") acmeCard1
      initState).seen_companies = initState.seen_companies ∧
    (process_card_commit 1000 ("kundenservice") ("ulm") wCard
      initState).seen_companies = insert wCard.company initState.seen_companies :=
  ⟨seen_set_memoizes_only_qualifying.1 1000 ⟨{("Acme GmbH")}, 1, []⟩ acmeCard1
      (by decide),
   seen_set_memoizes_only_qualifying.2.1 1000 ("kundenservice") ("ulm")
      acmeCard1 initState (by decide),
   seen_set_memoizes_only_qualifying.2.2 1000 ("kundenservice") ("ulm")
      wCard initState (by decide) (by decide) (by decide)⟩

/-- C10: in every reachable shared state the lead counter equals the
cardinality of the seen-companies set (both for an arbitrary sequence
of commits and for a whole orchestrated run from the initial state),
the counter equals the number of appended raw rows, and each company
name contributes at most one raw lead row. -/
theorem total_hits_eq_seen_card (L : Nat) (steps : List (String × String × Card))
    (plan : List SearchTask) (env : Nat → Nat → PageOutcome) (fuel idx0 : Nat) :
    (runCommits L steps).total_hits = (runCommits L steps).seen_companies.card ∧
    (runCommits L steps).raw_leads.length = (runCommits L steps).total_hits ∧
    ((runCommits L steps).raw_leads.map Lead.company).Nodup ∧
    (crawl L plan env fuel idx0 0 initState []).state.total_hits =
      (crawl L plan env fuel idx0 0 initState []).state.seen_companies.card := by
  have h1 := inv_runCommits L steps
  have h2 := inv_crawl L plan env fuel idx0 0 initState [] (inv_init L)
  exact ⟨h1.1, h1.2.1, h1.2.2.2.1, h2.1⟩

end Stepstone
